import Mathlib

/-!
Verification of the security-camera event pipeline.

This file is a shallow embedding, in Lean, of the parts of the code that the
specification's claims are about:

* the bounded circular chunk ring (`BoundedCircularOutput` in
  circular_buffer.py),
* the two-slot frame cache and its detection read
  (`_capture_pictures`, `get_frames_for_detection` in circular_buffer.py),
* the green-channel motion comparison (`_compare_frames` in
  motion_detector.py),
* the detector loop with its cooldown and the motion handler
  (`_detection_loop`, `_in_cooldown`, `_handle_motion_event` in
  motion_detector.py),
* the dump-clear-refill-dump video save and the `.pending` marker
  (`save_event_with_continuation`, `save_h264_as_mp4` in circular_buffer.py),
* the event processor's database updates (`_process_event` in
  event_processor.py) together with Python keyword-argument binding,
* configuration validation and the startup exit path (`validate_config` in
  config.py, `SecurityCameraSystem.run` in sec_cam_main.py).

Pure functions are translated directly; the stateful workers are modelled as
explicit state transformers driven by per-iteration environments (wall-clock
time, success or failure of each fallible call).  Wall-clock instants are
naturals; byte strings are lists of naturals.
-/

namespace SecCam

/-! ## The bounded chunk ring (circular_buffer.py, `BoundedCircularOutput`) -/

/-- One encoder output chunk as stored in the `_circular` deque: the tuple
`(bytes, keyframe)` that picamera2's `CircularOutput.outputframe` appends.
The byte payload is a list of byte values. -/
structure Chunk where
  data : List Nat
  isKeyframe : Bool
deriving Repr, DecidableEq

/-- State of a `BoundedCircularOutput`: the `_circular` deque (head of the
list = oldest chunk) and the `_chunk_count` eviction counter
(circular_buffer.py:51-52). -/
structure Ring where
  chunks : List Chunk
  evictions : Nat
deriving Repr, DecidableEq

/-- The eviction loop of `BoundedCircularOutput.outputframe`
(circular_buffer.py:65-70): `while len(self._circular) >= self.max_chunks`,
popleft the oldest chunk and increment `_chunk_count`; an `IndexError`
(popleft on an empty deque, possible only when `max_chunks = 0`) breaks the
loop. -/
def evictLoop (maxChunks : Nat) : List Chunk → Nat → List Chunk × Nat
  | [], ev => ([], ev)
  | c :: t, ev =>
    if maxChunks ≤ (c :: t).length then evictLoop maxChunks t (ev + 1)
    else (c :: t, ev)

/-- `BoundedCircularOutput.outputframe` (circular_buffer.py:56-76): evict
oldest chunks while at capacity, then let the parent `CircularOutput` append
the new chunk to the deque.  The parent's byte-budget bookkeeping can only
drop further old chunks and never grows the deque, so it is not modelled. -/
def outputframe (maxChunks : Nat) (r : Ring) (c : Chunk) : Ring :=
  let res := evictLoop maxChunks r.chunks r.evictions
  ⟨res.1 ++ [c], res.2⟩

/-- A fresh ring: empty deque, `_chunk_count = 0`. -/
def emptyRing : Ring := ⟨[], 0⟩

/-- A sequence of encoder appends into the ring. -/
def runAppends (maxChunks : Nat) (r : Ring) (cs : List Chunk) : Ring :=
  cs.foldl (outputframe maxChunks) r

/-! ## The two-slot frame cache (circular_buffer.py) -/

/-- The two-frame picture cache of `CircularBuffer`
(`previous_frame`/`current_frame`, circular_buffer.py:128-129), both slots
starting empty. -/
structure FramePair (α : Type) where
  previous : Option α
  current : Option α
deriving Repr, DecidableEq

/-- The initial cache: both slots `None`. -/
def emptyPair {α : Type} : FramePair α := ⟨none, none⟩

/-- The rotation performed by `_capture_pictures` under `frame_lock`
(circular_buffer.py:486-489): `previous ← current; current ← frame`. -/
def pushFrame {α : Type} (s : FramePair α) (f : α) : FramePair α :=
  ⟨s.current, some f⟩

/-- A sequence of capture-loop pushes into the cache. -/
def runPushes {α : Type} (s : FramePair α) (ps : List α) : FramePair α :=
  ps.foldl pushFrame s

/-- `get_frames_for_detection` (circular_buffer.py:529-563): under the lock,
if either slot is empty return `(None, None)`; otherwise downscale both
frames to the detection resolution inside the lock and return owned copies.
The downscale is the abstract `resize` argument. -/
def getFramesForDetection {α β : Type} (resize : α → β) (s : FramePair α) :
    Option β × Option β :=
  match s.previous, s.current with
  | some p, some c => (some (resize p), some (resize c))
  | _, _ => (none, none)

/-! ## Green-channel motion comparison (motion_detector.py) -/

/-- A detection-resolution frame as handed to `_compare_frames`: either a
3-channel image (pixels as `(r, g, b)` values) or a single-plane 2-D image
(motion_detector.py:221-227). -/
inductive DetFrame
  | rgb (pixels : List (Nat × Nat × Nat))
  | gray (pixels : List Nat)
deriving Repr, DecidableEq

/-- Channel selection in `_compare_frames` (motion_detector.py:221-227): for
3-D frames the green plane `frame[:, :, 1]`; a 2-D frame is used whole. -/
def greenPlane : DetFrame → List Nat
  | .rgb px => px.map (fun p => p.2.1)
  | .gray px => px

/-- `cv2.absdiff` on uint8 pixels: the saturated absolute difference, which
on natural-number pixel values is `max - min`. -/
def absdiff (a b : Nat) : Nat := max a b - min a b

/-- `_compare_frames` (motion_detector.py:198-246): elementwise absolute
difference of the green planes, the count of pixels strictly above the
threshold (`np.count_nonzero(diff > threshold)`), and the motion decision
`changed_pixels > self.sensitivity`.  Result is
`(motion_detected, changed_pixels)`. -/
def compareFrames (threshold sensitivity : Nat) (f1 f2 : DetFrame) :
    Bool × Nat :=
  let g1 := greenPlane f1
  let g2 := greenPlane f2
  let diff := (g1.zip g2).map (fun p => absdiff p.1 p.2)
  let changedPixels := (diff.filter (fun d => threshold < d)).length
  (decide (sensitivity < changedPixels), changedPixels)

/-! ## Supporting lemmas for the ring -/

theorem evictLoop_length_lt (m : Nat) (hm : 1 ≤ m) :
    ∀ (cs : List Chunk) (ev : Nat), (evictLoop m cs ev).1.length < m := by
  intro cs
  induction cs with
  | nil => intro ev; simpa [evictLoop] using hm
  | cons c t ih =>
    intro ev
    by_cases h : m ≤ t.length + 1
    · simpa [evictLoop, h] using ih (ev + 1)
    · simp only [evictLoop, List.length_cons, if_neg h]
      omega

theorem evictLoop_of_lt (m : Nat) (cs : List Chunk) (ev : Nat)
    (h : cs.length < m) : evictLoop m cs ev = (cs, ev) := by
  cases cs with
  | nil => simp [evictLoop]
  | cons c t => simp only [evictLoop, if_neg (Nat.not_le.mpr h)]

theorem evictLoop_of_length_eq (m : Nat) (c : Chunk) (t : List Chunk)
    (ev : Nat) (h : (c :: t).length = m) :
    evictLoop m (c :: t) ev = (t, ev + 1) := by
  have h1 : m ≤ (c :: t).length := Nat.le_of_eq h.symm
  have h2 : t.length < m := by simp only [List.length_cons] at h; omega
  simp only [evictLoop, if_pos h1, evictLoop_of_lt m t (ev + 1) h2]

theorem evictLoop_evictions_le (m : Nat) :
    ∀ (cs : List Chunk) (ev : Nat), ev ≤ (evictLoop m cs ev).2 := by
  intro cs
  induction cs with
  | nil => intro ev; simp [evictLoop]
  | cons c t ih =>
    intro ev
    by_cases h : m ≤ t.length + 1
    · calc ev ≤ ev + 1 := Nat.le_succ ev
        _ ≤ (evictLoop m t (ev + 1)).2 := ih (ev + 1)
        _ = (evictLoop m (c :: t) ev).2 := by simp [evictLoop, h]
    · simp [evictLoop, h]

theorem outputframe_length_le (m : Nat) (hm : 1 ≤ m) (r : Ring) (c : Chunk) :
    (outputframe m r c).chunks.length ≤ m := by
  have h := evictLoop_length_lt m hm r.chunks r.evictions
  simp only [outputframe, List.length_append, List.length_singleton]
  omega

theorem runAppends_length_le (m : Nat) (hm : 1 ≤ m) (r : Ring)
    (appends : List Chunk) (hr : r.chunks.length ≤ m) :
    (runAppends m r appends).chunks.length ≤ m := by
  induction appends generalizing r with
  | nil => simpa [runAppends] using hr
  | cons c t ih =>
    have hstep := outputframe_length_le m hm r c
    simpa [runAppends, List.foldl_cons] using ih (outputframe m r c) hstep

/-- C2: for every sequence of appends into the ring, the deque length stays
at or below `max_chunks` at every observation point; the eviction counter
never decreases across an append; and on an append from a reachable state
(length at most `max_chunks`) the counter grows by exactly one when the ring
is full (the overflow-driven drop) and by zero otherwise. -/
theorem ring_bound_and_evictions (m : Nat) (hm : 1 ≤ m)
    (appends : List Chunk) :
    (runAppends m emptyRing appends).chunks.length ≤ m ∧
    (∀ (r : Ring) (c : Chunk),
      (outputframe m r c).chunks.length ≤ m ∧
      r.evictions ≤ (outputframe m r c).evictions ∧
      (r.chunks.length ≤ m →
        (outputframe m r c).evictions =
          r.evictions + (if r.chunks.length = m then 1 else 0))) := by
  refine ⟨runAppends_length_le m hm emptyRing appends (by simp [emptyRing]),
    fun r c => ⟨outputframe_length_le m hm r c, ?_, ?_⟩⟩
  · simpa [outputframe] using evictLoop_evictions_le m r.chunks r.evictions
  · intro hr
    by_cases hfull : r.chunks.length = m
    · cases hcs : r.chunks with
      | nil => rw [hcs] at hfull; simp at hfull; omega
      | cons c0 t =>
        rw [hcs] at hfull
        have hfull2 : t.length + 1 = m := by simpa using hfull
        simp [outputframe, hcs, evictLoop_of_length_eq m c0 t r.evictions hfull,
          hfull2]
    · have hlt : r.chunks.length < m := Nat.lt_of_le_of_ne hr hfull
      simp [outputframe, evictLoop_of_lt m r.chunks r.evictions hlt, hfull]

/-- Witness for `ring_bound_and_evictions` at `max_chunks = 2` and three
appends. -/
theorem ring_bound_and_evictions_witness :
    1 ≤ 2 ∧
    (runAppends 2 emptyRing
      [⟨[0], true⟩, ⟨[1], false⟩, ⟨[2], false⟩]).chunks.length ≤ 2 :=
  ⟨by decide,
    (ring_bound_and_evictions 2 (by decide)
      [⟨[0], true⟩, ⟨[1], false⟩, ⟨[2], false⟩]).1⟩

/-! ## Frame pair rotation lemmas -/

theorem runPushes_current {α : Type} (s : FramePair α) (ps : List α)
    (h : ps ≠ []) : (runPushes s ps).current = ps.getLast? := by
  induction ps using List.reverseRecOn generalizing s with
  | nil => exact absurd rfl h
  | append_singleton l a _ =>
    simp [runPushes, List.foldl_append, pushFrame, List.getLast?_concat]

theorem runPushes_previous {α : Type} (s : FramePair α) (ps : List α)
    (h : 2 ≤ ps.length) :
    (runPushes s ps).previous = ps.dropLast.getLast? := by
  induction ps using List.reverseRecOn generalizing s with
  | nil => simp at h
  | append_singleton l a _ =>
    have hl : l ≠ [] := by
      intro he
      subst he
      simp at h
    have hrw : runPushes s (l ++ [a]) = pushFrame (runPushes s l) a := by
      simp [runPushes, List.foldl_append]
    rw [hrw]
    simp [pushFrame, runPushes_current s l hl, List.dropLast_concat]

/-- C3: after any sequence of pushes p1, ..., pn into the initially empty
cache, if n ≥ 2 then `current = pn` and `previous = p(n-1)`; with n = 0 a
detection read returns `(None, None)`; with n = 1 it also returns
`(None, None)` because the previous slot is still empty. -/
theorem frame_pair_rotation {α : Type} (resize : α → α) (ps : List α) :
    (2 ≤ ps.length →
      (runPushes emptyPair ps).current = ps.getLast? ∧
      (runPushes emptyPair ps).previous = ps.dropLast.getLast?) ∧
    (ps.length = 0 →
      getFramesForDetection resize (runPushes emptyPair ps) = (none, none)) ∧
    (ps.length = 1 →
      getFramesForDetection resize (runPushes emptyPair ps) = (none, none)) := by
  refine ⟨fun h => ⟨?_, runPushes_previous emptyPair ps h⟩, fun h => ?_, fun h => ?_⟩
  · refine runPushes_current emptyPair ps ?_
    intro he
    subst he
    simp at h
  · have he : ps = [] := List.length_eq_zero.mp h
    subst he
    simp [runPushes, emptyPair, getFramesForDetection]
  · obtain ⟨a, rfl⟩ := List.length_eq_one.mp h
    simp [runPushes, pushFrame, emptyPair, getFramesForDetection]

/-- Witness for `frame_pair_rotation` with pushes 10, 20, 30. -/
theorem frame_pair_rotation_witness :
    2 ≤ ([10, 20, 30] : List Nat).length ∧
    (runPushes emptyPair ([10, 20, 30] : List Nat)).current = some 30 ∧
    (runPushes emptyPair ([10, 20, 30] : List Nat)).previous = some 20 := by
  have h := (frame_pair_rotation (fun x => x) ([10, 20, 30] : List Nat)).1
    (by decide)
  exact ⟨by decide, by simpa using h.1, by simpa using h.2⟩

/-! ## Motion comparison lemmas -/

theorem absdiff_eq_natAbs (a b : Nat) :
    absdiff a b = ((a : Int) - (b : Int)).natAbs := by
  simp only [absdiff]
  omega

/-- C4: the comparison counts a pixel position as changed exactly when the
absolute difference of the green-channel values (the whole plane for 2-D
frames) strictly exceeds the per-pixel threshold, and reports motion exactly
when the count of changed pixels strictly exceeds the sensitivity. -/
theorem green_channel_motion_decision (t s : Nat) (f1 f2 : DetFrame) :
    (compareFrames t s f1 f2).2 =
      ((greenPlane f1).zip (greenPlane f2)).countP
        (fun p => decide (t < (((p.1 : Int) - (p.2 : Int)).natAbs))) ∧
    ((compareFrames t s f1 f2).1 = true ↔ s < (compareFrames t s f1 f2).2) := by
  constructor
  · simp only [compareFrames]
    rw [← List.countP_eq_length_filter, List.countP_map]
    refine List.countP_congr ?_
    intro p _
    simp [Function.comp, absdiff_eq_natAbs]
  · simp [compareFrames]

/-! ## Detector state, cooldown and the motion handler (motion_detector.py) -/

/-- Detector state: `last_detection_time`, with 0 the initial "no detection
yet" sentinel (motion_detector.py:65). -/
structure DetState where
  lastDetectionTime : Nat
deriving Repr, DecidableEq

/-- `_in_cooldown` (motion_detector.py:185-196): never in cooldown before the
first detection (sentinel 0); otherwise in cooldown while
`now - last_detection_time < cooldown_seconds`. -/
def inCooldown (cooldownSeconds : Nat) (now : Nat) (s : DetState) : Bool :=
  if s.lastDetectionTime = 0 then false
  else decide (now - s.lastDetectionTime < cooldownSeconds)

/-- The environment of one detector-loop iteration: the wall-clock instant of
the iteration, whether the frame pair compares as motion (frames missing
counts as no motion), whether the fresh Picture-A capture and the store
insert succeed, whether the `MotionEvent.set` call succeeds, and the row id
the store assigns on insert. -/
structure Tick where
  now : Nat
  motion : Bool
  captureOk : Bool
  insertOk : Bool
  signalOk : Bool
  eventId : Nat
deriving Repr, DecidableEq

/-- The externally visible actions of `_handle_motion_event`, in program
order. -/
inductive Act
  | captureStill (ok : Bool)
  | insertEvent (id ts : Nat) (ok : Bool)
  | setSignal (id ts : Nat)
deriving Repr, DecidableEq

/-- `_handle_motion_event` (motion_detector.py:249-292): capture a fresh
color still (Picture A), insert the event row in the store obtaining
`event_id`, call `MotionEvent.set(event_id, timestamp)`, then enter cooldown
by assigning `last_detection_time`.  An exception at any step is caught at
line 290 and aborts the rest of the handler, so the cooldown assignment runs
only after a successful signal.  `MotionEvent.set` (motion_event.py:47-70)
publishes atomically: a failing call leaves no signal.  Returns the actions
performed and the detector state after the handler. -/
def handleMotionEvent (s : DetState) (tk : Tick) : List Act × DetState :=
  if tk.captureOk = false then
    ([Act.captureStill false], s)
  else if tk.insertOk = false then
    ([Act.captureStill true, Act.insertEvent tk.eventId tk.now false], s)
  else if tk.signalOk = false then
    ([Act.captureStill true, Act.insertEvent tk.eventId tk.now true], s)
  else
    ([Act.captureStill true, Act.insertEvent tk.eventId tk.now true,
      Act.setSignal tk.eventId tk.now],
     ⟨tk.now⟩)

/-- The event rows visible in the store after a list of actions: a successful
`add_new_event` commits the row `(id, timestamp)` (database.py:211-218); a
failing one rolls back. -/
def storeRows : List Act → List (Nat × Nat)
  | [] => []
  | Act.insertEvent id ts true :: rest => (id, ts) :: storeRows rest
  | _ :: rest => storeRows rest

/-- The times at which `MotionEvent.set` was called in a list of actions. -/
def setTimes (acts : List Act) : List Nat :=
  acts.filterMap (fun a =>
    match a with
    | Act.setSignal _ ts => some ts
    | _ => none)

/-- One iteration of `_detection_loop` (motion_detector.py:112-176): skip
while in cooldown; skip when the frames do not compare as motion; otherwise
run `_handle_motion_event`.  Returns the new detector state and the times of
the `MotionEvent.set` calls made this iteration. -/
def detStep (cd : Nat) (s : DetState) (tk : Tick) : DetState × List Nat :=
  if inCooldown cd tk.now s then (s, [])
  else if tk.motion = false then (s, [])
  else
    let r := handleMotionEvent s tk
    (r.2, setTimes r.1)

/-- The detector loop over a sequence of iterations: the `MotionEvent.set`
call times it produces, in order. -/
def detRun (cd : Nat) : DetState → List Tick → List Nat
  | _, [] => []
  | s, tk :: rest =>
    (detStep cd s tk).2 ++ detRun cd (detStep cd s tk).1 rest

theorem detStep_cases (cd : Nat) (s : DetState) (tk : Tick) :
    detStep cd s tk = (s, []) ∨
    (detStep cd s tk = (⟨tk.now⟩, [tk.now]) ∧
      inCooldown cd tk.now s = false) := by
  by_cases h1 : inCooldown cd tk.now s
  · left; simp [detStep, h1]
  · by_cases h2 : tk.motion
    · cases h3 : tk.captureOk
      · left; simp [detStep, handleMotionEvent, setTimes, h1, h2, h3]
      · cases h4 : tk.insertOk
        · left; simp [detStep, handleMotionEvent, setTimes, h1, h2, h3, h4]
        · cases h5 : tk.signalOk
          · left; simp [detStep, handleMotionEvent, setTimes, h1, h2, h3, h4, h5]
          · right
            refine ⟨?_, by simpa using h1⟩
            simp [detStep, handleMotionEvent, setTimes, h1, h2, h3, h4, h5]
    · left; simp [detStep, h1, h2]

theorem detRun_chain_aux (cd : Nat) :
    ∀ (ticks : List Tick) (s : DetState),
      List.Pairwise (fun a b => a.now ≤ b.now) ticks →
      (∀ tk ∈ ticks, 1 ≤ tk.now) →
      (∀ tk ∈ ticks, s.lastDetectionTime ≤ tk.now) →
      List.Chain' (fun a b => a + cd ≤ b) (detRun cd s ticks) ∧
      (∀ e ∈ detRun cd s ticks,
        s.lastDetectionTime + cd ≤ e ∨ s.lastDetectionTime = 0)
  | [], s, _, _, _ => by simp [detRun]
  | tk :: rest, s, hmono, hpos, hle => by
    have hrest_mono : List.Pairwise (fun a b => a.now ≤ b.now) rest :=
      hmono.of_cons
    have hhead : ∀ b ∈ rest, tk.now ≤ b.now := (List.pairwise_cons.mp hmono).1
    have hrest_pos : ∀ t ∈ rest, 1 ≤ t.now :=
      fun t ht => hpos t (List.mem_cons_of_mem tk ht)
    rcases detStep_cases cd s tk with hstep | ⟨hstep, hcool⟩
    · have hrest_le : ∀ t ∈ rest, s.lastDetectionTime ≤ t.now :=
        fun t ht => hle t (List.mem_cons_of_mem tk ht)
      have ih := detRun_chain_aux cd rest s hrest_mono hrest_pos hrest_le
      constructor
      · simpa [detRun, hstep] using ih.1
      · intro e he
        rw [detRun, hstep] at he
        exact ih.2 e (by simpa using he)
    · have hrest_le : ∀ t ∈ rest,
          (⟨tk.now⟩ : DetState).lastDetectionTime ≤ t.now :=
        fun t ht => hhead t ht
      have ih := detRun_chain_aux cd rest ⟨tk.now⟩ hrest_mono hrest_pos hrest_le
      have htknow : 1 ≤ tk.now := hpos tk (List.mem_cons_self tk rest)
      have hfire : s.lastDetectionTime + cd ≤ tk.now ∨
          s.lastDetectionTime = 0 := by
        by_cases h0 : s.lastDetectionTime = 0
        · exact Or.inr h0
        · left
          have hlast : s.lastDetectionTime ≤ tk.now :=
            hle tk (List.mem_cons_self tk rest)
          have : ¬ (tk.now - s.lastDetectionTime < cd) := by
            simpa [inCooldown, h0] using hcool
          omega
      have htail : ∀ e ∈ detRun cd (⟨tk.now⟩ : DetState) rest,
          tk.now + cd ≤ e := by
        intro e he
        rcases ih.2 e he with h | h
        · exact h
        · simp at h
          omega
      constructor
      · rw [detRun, hstep]
        simp only [List.singleton_append]
        rw [List.chain'_cons']
        refine ⟨fun b hb => htail b (List.mem_of_mem_head? hb), ih.1⟩
      · intro e he
        rw [detRun, hstep] at he
        simp only [List.singleton_append, List.mem_cons] at he
        rcases he with rfl | he
        · exact hfire
        · have h1 := htail e he
          have h2 : s.lastDetectionTime ≤ tk.now :=
            hle tk (List.mem_cons_self tk rest)
          left
          omega

/-- C5: between any two successive `MotionEvent.set` calls issued by the
detector loop (started fresh, sentinel 0), at least `cooldown_seconds` of
wall time elapse, for any iteration sequence with monotone positive
wall-clock times. -/
theorem cooldown_between_signals (cd : Nat) (ticks : List Tick)
    (hmono : List.Pairwise (fun a b => a.now ≤ b.now) ticks)
    (hpos : ∀ tk ∈ ticks, 1 ≤ tk.now) :
    List.Chain' (fun a b => a + cd ≤ b) (detRun cd ⟨0⟩ ticks) :=
  (detRun_chain_aux cd ticks ⟨0⟩ hmono hpos (fun tk _ => Nat.zero_le tk.now)).1

/-- Witness for `cooldown_between_signals`: cooldown 3, iterations at times
1, 2 and 10, each observing motion with all calls succeeding; the set calls
happen at times 1 and 10. -/
theorem cooldown_between_signals_witness :
    detRun 3 ⟨0⟩
      [⟨1, true, true, true, true, 1⟩, ⟨2, true, true, true, true, 2⟩,
       ⟨10, true, true, true, true, 3⟩] = [1, 10] ∧
    List.Chain' (fun a b => a + 3 ≤ b)
      (detRun 3 ⟨0⟩
        [⟨1, true, true, true, true, 1⟩, ⟨2, true, true, true, true, 2⟩,
         ⟨10, true, true, true, true, 3⟩]) :=
  ⟨by decide,
    cooldown_between_signals 3
      [⟨1, true, true, true, true, 1⟩, ⟨2, true, true, true, true, 2⟩,
       ⟨10, true, true, true, true, 3⟩]
      (by decide) (by decide)⟩

/-- C6: whenever `_handle_motion_event` calls `MotionEvent.set(id, t)`, the
event row `(id, t)` is already committed in the store by the actions that
precede the signal: the insert (which assigns the id and stores the same
timestamp passed to the signal) happens strictly before the set call. -/
theorem row_inserted_before_signal (s : DetState) (tk : Tick)
    (i id ts : Nat)
    (h : ((handleMotionEvent s tk).1)[i]? = some (Act.setSignal id ts)) :
    (id, ts) ∈ storeRows (((handleMotionEvent s tk).1).take i) ∧
    id = tk.eventId ∧ ts = tk.now := by
  rcases i with _ | _ | _ | i <;>
    cases h3 : tk.captureOk <;> cases h4 : tk.insertOk <;>
      cases h5 : tk.signalOk <;>
    simp_all [handleMotionEvent, storeRows]

/-- Witness for `row_inserted_before_signal`: a fully successful handler run
at time 5 with store id 7; the set call is the third action and the row
(7, 5) is in the store built from the two actions before it. -/
theorem row_inserted_before_signal_witness :
    ((handleMotionEvent ⟨0⟩ ⟨5, true, true, true, true, 7⟩).1)[2]? =
      some (Act.setSignal 7 5) ∧
    (7, 5) ∈ storeRows
      (((handleMotionEvent ⟨0⟩ ⟨5, true, true, true, true, 7⟩).1).take 2) :=
  ⟨by decide,
    (row_inserted_before_signal ⟨0⟩ ⟨5, true, true, true, true, 7⟩ 2 7 5
      (by decide)).1⟩

/-- C10: if the handler fails at any step (capture, insert or signalling),
`last_detection_time` is unchanged, so no cooldown is entered and the next
iteration's cooldown check behaves exactly as before the attempt; and when
the failure occurs before the signal step, no `MotionEvent.set` call is made
in that attempt. -/
theorem handler_failure_no_cooldown (cd : Nat) (s : DetState) (tk : Tick)
    (hfail : tk.captureOk = false ∨ tk.insertOk = false ∨
      tk.signalOk = false) :
    (handleMotionEvent s tk).2 = s ∧
    (∀ now2, inCooldown cd now2 (handleMotionEvent s tk).2 =
      inCooldown cd now2 s) ∧
    ((tk.captureOk = false ∨ tk.insertOk = false) →
      ∀ id ts, Act.setSignal id ts ∉ (handleMotionEvent s tk).1) := by
  cases h3 : tk.captureOk <;> cases h4 : tk.insertOk <;>
    cases h5 : tk.signalOk <;>
    simp_all [handleMotionEvent]

/-- Witness for `handler_failure_no_cooldown`: a handler attempt at time 5
whose store insert fails leaves the fresh detector state unchanged. -/
theorem handler_failure_no_cooldown_witness :
    ((⟨5, true, true, false, true, 3⟩ : Tick).captureOk = false ∨
      (⟨5, true, true, false, true, 3⟩ : Tick).insertOk = false ∨
      (⟨5, true, true, false, true, 3⟩ : Tick).signalOk = false) ∧
    (handleMotionEvent ⟨0⟩ ⟨5, true, true, false, true, 3⟩).2 = ⟨0⟩ :=
  ⟨Or.inr (Or.inl rfl),
    (handler_failure_no_cooldown 65 ⟨0⟩ ⟨5, true, true, false, true, 3⟩
      (Or.inr (Or.inl rfl))).1⟩

/-! ## The dump phases of the video save (circular_buffer.py) -/

/-- The phase-1 and phase-4 dump loop of `save_event_with_continuation`
over a snapshot of the ring (circular_buffer.py:298-319, 386-407): while the
`found_keyframe` flag is unset, skip chunks until the first keyframe (which
is itself written); from then on write every chunk's bytes.  Returns the
chunks whose bytes are written, in order.  (The `isinstance` probes on the
`(bytes, keyframe)` tuples always succeed for ring chunks.) -/
def dumpLoop (found : Bool) : List Chunk → List Chunk
  | [] => []
  | c :: rest =>
    if found then c :: dumpLoop true rest
    else if c.isKeyframe then c :: dumpLoop true rest
    else dumpLoop false rest

/-- One dump phase starting with `found_keyframe = False`
(circular_buffer.py:296, 384). -/
def dumpSegment (snapshot : List Chunk) : List Chunk := dumpLoop false snapshot

/-- The `found_keyframe` flag at the end of a dump phase; the phase emits the
"No keyframe found" warning exactly when this is false
(circular_buffer.py:320-321, 408-409). -/
def dumpFoundKeyframe : List Chunk → Bool
  | [] => false
  | c :: rest => if c.isKeyframe then true else dumpFoundKeyframe rest

theorem dumpLoop_found_eq (l : List Chunk) : dumpLoop true l = l := by
  induction l with
  | nil => rfl
  | cons c t ih => simp [dumpLoop, ih]

theorem dumpSegment_eq_dropWhile (l : List Chunk) :
    dumpSegment l = l.dropWhile (fun c => !c.isKeyframe) := by
  induction l with
  | nil => rfl
  | cons c t ih =>
    cases h : c.isKeyframe
    · simpa [dumpSegment, dumpLoop, h, List.dropWhile] using ih
    · simp [dumpSegment, dumpLoop, h, List.dropWhile, dumpLoop_found_eq]

theorem dumpSegment_head_keyframe :
    ∀ (l : List Chunk) (c : Chunk) (rest : List Chunk),
      dumpSegment l = c :: rest → c.isKeyframe = true := by
  intro l
  induction l with
  | nil => intro c rest h; simp [dumpSegment, dumpLoop] at h
  | cons a t ih =>
    intro c rest h
    cases ha : a.isKeyframe
    · refine ih c rest ?_
      simpa [dumpSegment, dumpLoop, ha] using h
    · have : a = c := by
        simp [dumpSegment, dumpLoop, ha] at h
        exact h.1
      rw [← this]
      exact ha

theorem dumpFoundKeyframe_false_iff (l : List Chunk) :
    dumpFoundKeyframe l = false ↔ ∀ c ∈ l, c.isKeyframe = false := by
  induction l with
  | nil => simp [dumpFoundKeyframe]
  | cons c t ih =>
    cases h : c.isKeyframe
    · simp [dumpFoundKeyframe, h, ih]
    · simp [dumpFoundKeyframe, h]

/-- C8: for every dump phase, the first chunk whose bytes reach the file is a
keyframe; the chunks of the snapshot before the first keyframe are exactly
the ones skipped; and when no keyframe is present the phase writes nothing
(and its warning condition holds precisely in that case). -/
theorem dump_keyframe_alignment (snapshot : List Chunk) :
    (∀ c rest, dumpSegment snapshot = c :: rest → c.isKeyframe = true) ∧
    dumpSegment snapshot = snapshot.dropWhile (fun c => !c.isKeyframe) ∧
    (dumpFoundKeyframe snapshot = false ↔
      ∀ c ∈ snapshot, c.isKeyframe = false) ∧
    (dumpFoundKeyframe snapshot = false → dumpSegment snapshot = []) := by
  refine ⟨?_, dumpSegment_eq_dropWhile snapshot,
    dumpFoundKeyframe_false_iff snapshot, ?_⟩
  · exact dumpSegment_head_keyframe snapshot
  · intro h
    rw [dumpSegment_eq_dropWhile, List.dropWhile_eq_nil_iff]
    intro c hc
    simpa using (dumpFoundKeyframe_false_iff snapshot).mp h c hc

/-- Witness for `dump_keyframe_alignment`: a snapshot whose first chunk is
not a keyframe; the dumped segment starts at the keyframe chunk. -/
theorem dump_keyframe_alignment_witness :
    dumpSegment [⟨[9], false⟩, ⟨[1], true⟩, ⟨[2], false⟩] =
      [⟨[1], true⟩, ⟨[2], false⟩] ∧
    (⟨[1], true⟩ : Chunk).isKeyframe = true :=
  ⟨by decide,
    (dump_keyframe_alignment [⟨[9], false⟩, ⟨[1], true⟩, ⟨[2], false⟩]).1
      ⟨[1], true⟩ [⟨[2], false⟩] (by decide)⟩

/-! ## The save protocol's filesystem effects and the pending marker -/

/-- Filesystem-visible operations of the used video-save path
(`save_h264_as_mp4` with `use_continuation = True`, which runs
`save_event_with_continuation`), one constructor per source site. -/
inductive FsOp
  | openOutput              -- open(filepath_h264, "wb") (circular_buffer.py:286)
  | writeChunk (c : Chunk)  -- f.write(chunk_data) (314, 401)
  | flushPhase1             -- f.flush() at the end of phase 1 (327)
  | clearBuffer             -- _circular.clear() (336)
  | refillWait              -- the phase-3 sleep-poll (349-374)
  | flushFinal              -- the final f.flush() (417)
  | fsyncOutput             -- os.fsync(f.fileno()) (418)
  | closeOutput             -- the with-block closes the file (419)
  | checkOutput             -- os.path.exists / getsize (423-424, 705-707)
  | syncDisk                -- os.sync() (712)
  | touchPending            -- Path(pending_marker).touch() (716)
deriving Repr, DecidableEq

/-- The write operations of one dump phase: one per chunk retained by the
keyframe-aligned dump.  (The data-dependent periodic `f.flush()` every 100
chunks is omitted; it only adds flushes strictly before the final fsync.) -/
def dumpOps (snapshot : List Chunk) : List FsOp :=
  (dumpSegment snapshot).map FsOp.writeChunk

/-- The operations before the final flush: open the output, dump the
pre-motion snapshot, flush, clear the ring, wait for the refill, dump the
post-motion snapshot. -/
def saveOpsBody (pre post : List Chunk) : List FsOp :=
  FsOp.openOutput ::
    (dumpOps pre ++ [FsOp.flushPhase1, FsOp.clearBuffer, FsOp.refillWait] ++
      dumpOps post)

/-- The closing operations, in source order: final flush, fsync, close,
existence check, `os.sync`, and only then the `.pending` marker touch. -/
def saveOpsTail : List FsOp :=
  [FsOp.flushFinal, FsOp.fsyncOutput, FsOp.closeOutput, FsOp.checkOutput,
   FsOp.syncDisk, FsOp.touchPending]

/-- The full in-order effect sequence of the save.  A run aborted by an
exception after `k` completed operations is `(saveOps pre post).take k`; in
`save_h264_as_mp4` the exception is caught, the partial `.h264` file is kept
and no marker is touched (circular_buffer.py:725-730). -/
def saveOps (pre post : List Chunk) : List FsOp :=
  saveOpsBody pre post ++ saveOpsTail

theorem touchPending_not_mem_dumpOps (l : List Chunk) :
    FsOp.touchPending ∉ dumpOps l := by
  simp [dumpOps]

theorem touchPending_not_mem_body (pre post : List Chunk) :
    FsOp.touchPending ∉ saveOpsBody pre post := by
  simp [saveOpsBody, touchPending_not_mem_dumpOps]

/-- C7: at every abort point of the video save (the run's first `k`
operations), if the `.pending` marker has been touched then the `.h264`
output was opened and its final flush and fsync had already succeeded; the
whole save in fact completed.  Contrapositive: a save failing before the
fsync leaves no marker. -/
theorem pending_marker_after_fsync (pre post : List Chunk) (k : Nat)
    (h : FsOp.touchPending ∈ (saveOps pre post).take k) :
    (saveOps pre post).take k = saveOps pre post ∧
    FsOp.openOutput ∈ (saveOps pre post).take k ∧
    FsOp.flushFinal ∈ (saveOps pre post).take k ∧
    FsOp.fsyncOutput ∈ (saveOps pre post).take k := by
  have hsplit : (saveOps pre post).take k =
      (saveOpsBody pre post).take k ++
        saveOpsTail.take (k - (saveOpsBody pre post).length) := by
    simp [saveOps, List.take_append_eq_append_take]
  rw [hsplit] at h
  rcases List.mem_append.mp h with hbody | htail
  · exact absurd (List.take_subset k _ hbody)
      (touchPending_not_mem_body pre post)
  · have htaillen : 6 ≤ k - (saveOpsBody pre post).length := by
      by_contra hlt
      push_neg at hlt
      interval_cases h6 : (k - (saveOpsBody pre post).length) <;>
        simp [saveOpsTail] at htail
    have hk : (saveOps pre post).length ≤ k := by
      have : (saveOps pre post).length = (saveOpsBody pre post).length + 6 := by
        simp [saveOps, saveOpsTail]
      omega
    have hall : (saveOps pre post).take k = saveOps pre post :=
      List.take_of_length_le hk
    refine ⟨hall, ?_, ?_, ?_⟩ <;> rw [hall] <;>
      simp [saveOps, saveOpsBody, saveOpsTail]

/-- Witness for `pending_marker_after_fsync`: a completed save of one
keyframe chunk per phase (12 operations); the marker is in the executed
prefix and so is the fsync. -/
theorem pending_marker_after_fsync_witness :
    FsOp.touchPending ∈ (saveOps [⟨[0], true⟩] [⟨[1], true⟩]).take 12 ∧
    FsOp.fsyncOutput ∈ (saveOps [⟨[0], true⟩] [⟨[1], true⟩]).take 12 :=
  ⟨by decide,
    (pending_marker_after_fsync [⟨[0], true⟩] [⟨[1], true⟩] 12
      (by decide)).2.2.2⟩

/-! ## Configuration validation and startup (config.py, sec_cam_main.py) -/

/-- The configuration parameters examined by `validate_config`
(config.py:188-221). -/
structure Config where
  motionCooldownSeconds : Nat
  videoResolution : Nat × Nat
  videoFramerate : Nat
  circularBufferMaxChunks : Nat
  circularBufferMaxBytes : Nat
deriving Repr, DecidableEq

/-- `validate_config` (config.py:188-221): raises `ValueError` only when the
cooldown is below 17 seconds.  A non-standard resolution, a high framerate,
a low or high buffer chunk capacity and a high byte limit each only print a
warning.  Returns the raised error, or the warnings printed. -/
def validateConfig (c : Config) : Except String (List String) :=
  if c.motionCooldownSeconds < 17 then
    Except.error "MOTION_COOLDOWN_SECONDS should be >= 17"
  else
    Except.ok
      ((if c.videoResolution ≠ (1920, 1080) ∧ c.videoResolution ≠ (1280, 720) ∧
          c.videoResolution ≠ (640, 480) then
          ["Warning: Non-standard resolution"] else []) ++
       (if 30 < c.videoFramerate then ["Warning: High framerate"] else []) ++
       (if c.circularBufferMaxChunks < 300 then
          ["Warning: Low buffer capacity"] else []) ++
       (if 3000 < c.circularBufferMaxChunks then
          ["Warning: High buffer capacity"] else []) ++
       (if 100 * 1024 * 1024 < c.circularBufferMaxBytes then
          ["Warning: Buffer memory limit very high"] else []))

/-- `SecurityCameraSystem.run` (sec_cam_main.py:438-456) as driven by config
validation: a raise inside `initialize` is caught (sec_cam_main.py:137-140),
`initialize` returns False and `run` returns exit code 1 without starting
any worker; when validation passes, startup proceeds and the workers start
(the camera and the remaining startup steps are modelled as succeeding).
Result: (exit-code path, workers started). -/
def systemRun (c : Config) : Nat × Bool :=
  match validateConfig c with
  | Except.error _ => (1, false)
  | Except.ok _ => (0, true)

/-- C9 counterexample: a configuration with a too-small buffer (100 < 300
chunks) passes validation with only a printed warning and startup proceeds
with exit path 0; likewise a configuration with the unsupported resolution
800x600.  This contradicts the claim that a too-small buffer or an
unsupported resolution is fatal at startup. -/
theorem config_warnings_not_fatal_cex :
    validateConfig ⟨65, (1280, 720), 15, 100, 52428800⟩ =
      Except.ok ["Warning: Low buffer capacity"] ∧
    systemRun ⟨65, (1280, 720), 15, 100, 52428800⟩ = (0, true) ∧
    validateConfig ⟨65, (800, 600), 15, 1000, 52428800⟩ =
      Except.ok ["Warning: Non-standard resolution"] ∧
    systemRun ⟨65, (800, 600), 15, 1000, 52428800⟩ = (0, true) := by
  refine ⟨?_, ?_, ?_, ?_⟩ <;> rfl

/-- C9 as amended: only a too-short cooldown (below 17 s) is fatal at
startup — validation raises, the exception is caught, and the process takes
the exit-code-1 path without starting the workers; a too-small buffer and an
unsupported resolution produce printed warnings only and startup proceeds. -/
theorem only_short_cooldown_fatal (c : Config) :
    (c.motionCooldownSeconds < 17 →
      (∃ e, validateConfig c = Except.error e) ∧ systemRun c = (1, false)) ∧
    (17 ≤ c.motionCooldownSeconds →
      systemRun c = (0, true) ∧
      ∀ w, validateConfig c = Except.ok w →
        ((c.circularBufferMaxChunks < 300 →
            "Warning: Low buffer capacity" ∈ w) ∧
         (c.videoResolution ≠ (1920, 1080) ∧ c.videoResolution ≠ (1280, 720) ∧
            c.videoResolution ≠ (640, 480) →
            "Warning: Non-standard resolution" ∈ w))) := by
  constructor
  · intro h
    exact ⟨⟨"MOTION_COOLDOWN_SECONDS should be >= 17",
      by simp [validateConfig, h]⟩, by simp [systemRun, validateConfig, h]⟩
  · intro h
    have h17 : ¬ c.motionCooldownSeconds < 17 := Nat.not_lt.mpr h
    refine ⟨by simp [systemRun, validateConfig, h17], ?_⟩
    intro w hw
    simp only [validateConfig, if_neg h17, Except.ok.injEq] at hw
    subst hw
    constructor
    · intro hlow
      simp [hlow]
    · intro hres
      simp [hres]

/-- Witness for `only_short_cooldown_fatal`: a 5-second cooldown is fatal
(exit path 1, workers not started); a valid cooldown with a 100-chunk buffer
starts with the low-buffer warning only. -/
theorem only_short_cooldown_fatal_witness :
    ((5 : Nat) < 17 ∧ systemRun ⟨5, (1280, 720), 15, 1000, 52428800⟩ = (1, false)) ∧
    ((17 : Nat) ≤ 65 ∧ systemRun ⟨65, (1280, 720), 15, 100, 52428800⟩ = (0, true)) :=
  ⟨⟨by decide,
      (only_short_cooldown_fatal ⟨5, (1280, 720), 15, 1000, 52428800⟩).1
        (by decide) |>.2⟩,
   ⟨by decide,
      ((only_short_cooldown_fatal ⟨65, (1280, 720), 15, 100, 52428800⟩).2
        (by decide)).1⟩⟩

/-! ## The event processor's video step (event_processor.py) -/

/-- The parameter names of `CircularBuffer.save_h264_as_mp4`
(circular_buffer.py:658); the signature has no catch-all keyword
parameter. -/
def saveH264AsMp4Params : List String :=
  ["self", "filepath_mp4", "use_continuation", "target_fill_percent",
   "timeout_seconds"]

/-- The keyword-argument names of the call in `EventProcessor._process_event`
(event_processor.py:196-200). -/
def processEventVideoCallKeywords : List String :=
  ["use_continuation", "continuation_seconds"]

/-- Python call binding for a signature without a catch-all keyword
parameter: the call binds exactly when every keyword argument names a
declared parameter; otherwise Python raises `TypeError` before the function
body runs. -/
def keywordsAccepted (params keywords : List String) : Bool :=
  keywords.all (fun k => params.contains k)

/-- The store updates `_process_event` can perform on an event row. -/
inductive DbUpdate
  | pictureB
  | thumbnail
  | video (duration : Option Nat)
deriving Repr, DecidableEq

/-- `_process_event` (event_processor.py:154-216) with Picture B and the
thumbnail succeeding: step 4 calls `save_h264_as_mp4` with the
`continuation_seconds` keyword.  If the call binds, `db.save_video(event_id,
video_path)` follows — with no duration argument (event_processor.py:202),
so the duration field would stay unset; if it does not bind, the `TypeError`
propagates to the handler at line 214, which logs and returns, skipping
`db.save_video` entirely. -/
def processEventUpdates : List DbUpdate :=
  [DbUpdate.pictureB, DbUpdate.thumbnail] ++
    (if keywordsAccepted saveH264AsMp4Params processEventVideoCallKeywords then
      [DbUpdate.video none]
    else [])

/-- C1 (code bug): the video-save call of `_process_event` passes the
keyword `continuation_seconds`, which `save_h264_as_mp4` does not declare,
so the call raises `TypeError` and the event row never receives
`video_path`, let alone `duration_seconds`; the dump-clear-refill-dump save
is never reached from the processor. -/
theorem video_row_never_updated :
    keywordsAccepted saveH264AsMp4Params processEventVideoCallKeywords = false ∧
    processEventUpdates = [DbUpdate.pictureB, DbUpdate.thumbnail] := by
  refine ⟨?_, ?_⟩ <;> rfl

end SecCam
